import Mathlib

/-!
Verification development for the vistec-AI thaillm-prescreen-rulesets
client-side simulator: a shallow embedding of the TypeScript evaluator
(`inspector/frontend/src/lib/simulator/evaluator.ts`), the resolution engine
(`inspector/frontend/src/lib/simulator/engine.ts`) and the `useSimulator`
session state machine, together with theorems about the embedded code.

JavaScript dynamic values are embedded as the inductive type `Val`;
JavaScript exceptions are embedded as `Except EngineErr`; host primitives
(`Number(..)`, `String(..)`, `new RegExp(..)`, `new Date(..)`) are embedded
as executable models whose doc comments state the modelled subset.
-/

deriving instance DecidableEq for Except

namespace Prescreen

mutual
/-- Embedding of a JavaScript runtime value (`unknown` in the TypeScript
source). `undef` and `null` are distinguished exactly as in JavaScript.
Numbers are modelled as rationals (JavaScript numbers are binary floats;
no claim in this development depends on rounding, and `NaN` never occurs
as a stored value: failed numeric coercion is represented by `Option`). -/
inductive Val where
  | undef : Val
  | null : Val
  | bool (b : Bool) : Val
  | num (q : Rat) : Val
  | str (s : String) : Val
  | arr (elems : ValList) : Val
  | obj (fields : ValFields) : Val
deriving DecidableEq

/-- The elements of a JavaScript array value. -/
inductive ValList where
  | nil : ValList
  | cons (hd : Val) (tl : ValList) : ValList
deriving DecidableEq

/-- The own properties of a JavaScript object value, in insertion order. -/
inductive ValFields where
  | nil : ValFields
  | cons (key : String) (val : Val) (tl : ValFields) : ValFields
deriving DecidableEq
end

/-- The elements of an array value as a Lean list. -/
def ValList.toList : ValList → List Val
  | .nil => []
  | .cons v tl => v :: tl.toList

/-- Build an array value from a Lean list. -/
def ValList.ofList : List Val → ValList
  | [] => .nil
  | v :: vs => .cons v (ofList vs)

/-- The properties of an object value as a Lean association list. -/
def ValFields.toList : ValFields → List (String × Val)
  | .nil => []
  | .cons k v tl => (k, v) :: tl.toList

/-- Build an object value from a Lean association list. -/
def ValFields.ofList : List (String × Val) → ValFields
  | [] => .nil
  | (k, v) :: kvs => .cons k v (ofList kvs)

/-- Embedding of a JavaScript plain object used as a dictionary
(`Record<string, unknown>`): an association list in insertion order.
JavaScript objects cannot hold duplicate keys; `insertObj` preserves that. -/
abbrev AnswerMap := List (String × Val)

/-- The JavaScript `in` operator: key presence in an object. -/
def containsKey (m : AnswerMap) (k : String) : Bool :=
  m.any (fun kv => kv.1 == k)

/-- JavaScript member access `m[k]`: the stored value, or `undefined`
when the key is absent. -/
def jsGet (m : AnswerMap) (k : String) : Val :=
  match m.find? (fun kv => kv.1 == k) with
  | some kv => kv.2
  | none => Val.undef

/-- JavaScript property assignment `m[k] = v` (also one step of object
spread): updates the value in place if the key exists, else appends,
matching JavaScript insertion-order semantics. -/
def insertObj (m : AnswerMap) (k : String) (v : Val) : AnswerMap :=
  if containsKey m k then
    m.map (fun kv => if kv.1 == k then (k, v) else kv)
  else
    m ++ [(k, v)]

/-- JavaScript object spread of two dictionaries: keys of `b` merged into
`a`, later keys overriding, new keys appended in order. -/
def mergeObj (a b : AnswerMap) : AnswerMap :=
  b.foldl (fun acc kv => insertObj acc kv.1 kv.2) a

/-- View a dynamic value as an object dictionary: the unchecked TypeScript
cast `value as Record<string, unknown>` followed by dictionary-style use.
Non-objects have no own string-keyed properties of interest, so they are
modelled by the empty dictionary. -/
def asObjOrEmpty : Val → AnswerMap
  | Val.obj m => m.toList
  | _ => []

mutual
/-- Model of JavaScript `String(v)` / template interpolation. Faithful for
primitives; arrays join their elements with commas and plain objects print
as `[object Object]`, as in JavaScript. Non-integer rationals print as
`num/den`, a deliberate model deviation from float formatting that no
claim depends on. -/
def jsToString : Val → String
  | Val.undef => "undefined"
  | Val.null => "null"
  | Val.bool b => if b then "true" else "false"
  | Val.num q => if q.den = 1 then toString q.num else toString q.num ++ "/" ++ toString q.den
  | Val.str s => s
  | Val.arr es => jsToStringElems es
  | Val.obj _ => "[object Object]"

/-- Comma-joined rendering of array elements, as `Array.prototype.toString`. -/
def jsToStringElems : ValList → String
  | .nil => ""
  | .cons v .nil => jsToString v
  | .cons v tl => jsToString v ++ "," ++ jsToStringElems tl
end

/-- Decimal digit value of a character, if it is a digit. -/
def digitVal (c : Char) : Option Nat :=
  if c.isDigit then some (c.toNat - '0'.toNat) else none

/-- Drop leading whitespace characters. -/
def dropLeadingSpaces : List Char → List Char
  | [] => []
  | c :: cs => if c.isWhitespace then dropLeadingSpaces cs else c :: cs

/-- Model of `String.prototype.trim`: strip whitespace at both ends. -/
def jsTrim (s : String) : String :=
  String.mk ((dropLeadingSpaces (dropLeadingSpaces s.toList).reverse).reverse)

/-- Model of `String.prototype.toLowerCase` (ASCII case mapping; the
identifiers and labels compared in the code are ASCII). -/
def jsToLower (s : String) : String :=
  String.mk (s.toList.map (fun c =>
    if 'A' ≤ c ∧ c ≤ 'Z' then Char.ofNat (c.toNat + 32) else c))

/-- Split a character list on a separator character, keeping empty
segments, as `String.prototype.split` with a single-character
separator. -/
def splitOnChar (sep : Char) : List Char → List (List Char)
  | [] => [[]]
  | c :: cs =>
    let rest := splitOnChar sep cs
    if c = sep then [] :: rest
    else
      match rest with
      | [] => [[c]]
      | h :: t => (c :: h) :: t

/-- Join strings with a separator, as `Array.prototype.join`. -/
def joinSep (sep : String) : List String → String
  | [] => ""
  | [s] => s
  | s :: rest => s ++ sep ++ joinSep sep rest

/-- Helper for `parseDigits`: consume further digits, tracking the value
and the count of consumed characters. -/
def parseDigitsGo (acc count : Nat) : List Char → Nat × Nat × List Char
  | [] => (acc, count, [])
  | c :: cs =>
    match digitVal c with
    | some d => parseDigitsGo (acc * 10 + d) (count + 1) cs
    | none => (acc, count, c :: cs)

/-- Parse a nonempty run of decimal digits, returning the value, the
number of digit characters consumed, and the rest of the input. -/
def parseDigits : List Char → Option (Nat × Nat × List Char)
  | [] => none
  | c :: cs =>
    match digitVal c with
    | none => none
    | some d => some (parseDigitsGo d 1 cs)

/-- Parse a numeric literal of the shape `digits [. digits]` (the shape
matched by the regex `\d+(\.\d+)?` in the evaluator) spanning the whole
input, and return its exact value; models JavaScript `parseFloat` on
strings of that shape. -/
def parseNumLit (s : String) : Option Rat :=
  match parseDigits s.toList with
  | none => none
  | some (ip, _, rest) =>
    match rest with
    | [] => some (ip : Rat)
    | '.' :: rest2 =>
      match parseDigits rest2 with
      | some (fp, fcount, []) => some ((ip : Rat) + (fp : Rat) / ((10 : Rat) ^ fcount))
      | _ => none
    | _ => none

/-- Model of JavaScript string-to-number conversion (inside `Number(..)`):
the string is trimmed; an empty remainder is 0; otherwise an optional sign
followed by a decimal literal (`digits`, `digits.digits`, `.digits`,
`digits.`). Exponent, hexadecimal and `Infinity` forms are outside the
modelled subset (no claim uses them); unparsable strings are `none`,
representing `NaN`. -/
def parseNumber (s : String) : Option Rat :=
  let t := (dropLeadingSpaces (dropLeadingSpaces s.toList).reverse).reverse
  if t = [] then some 0
  else
    let (sign, body) :=
      match t with
      | '-' :: rest => ((-1 : Rat), rest)
      | '+' :: rest => ((1 : Rat), rest)
      | l => ((1 : Rat), l)
    let core : Option Rat :=
      match parseDigits body with
      | some (ip, _, []) => some (ip : Rat)
      | some (ip, _, '.' :: rest2) =>
        match rest2 with
        | [] => some (ip : Rat)
        | _ =>
          match parseDigits rest2 with
          | some (fp, fcount, []) => some ((ip : Rat) + (fp : Rat) / ((10 : Rat) ^ fcount))
          | _ => none
      | some _ => none
      | none =>
        match body with
        | '.' :: rest2 =>
          match parseDigits rest2 with
          | some (fp, fcount, []) => some ((fp : Rat) / ((10 : Rat) ^ fcount))
          | _ => none
        | _ => none
    core.map (fun q => sign * q)

/-- Model of JavaScript `Number(v)` coercion; `none` represents `NaN`.
Arrays and objects coerce through their string form, as in JavaScript
(so an empty array coerces to 0 and a plain object to `NaN`). -/
def toNumber : Val → Option Rat
  | Val.undef => none
  | Val.null => some 0
  | Val.bool b => some (if b then 1 else 0)
  | Val.num q => some q
  | Val.str s => parseNumber s
  | v => parseNumber (jsToString v)

/-- Model of JavaScript strict equality `===`. Faithful for primitives.
For arrays and objects JavaScript compares references; the two operands of
every `===` in the evaluator come from disjoint sources (a stored answer
and a rule literal), so distinct objects are never identical and the model
returns `false` whenever either side is an array or object. -/
def jsStrictEq : Val → Val → Bool
  | Val.undef, Val.undef => true
  | Val.null, Val.null => true
  | Val.bool a, Val.bool b => a == b
  | Val.num a, Val.num b => a == b
  | Val.str a, Val.str b => a == b
  | _, _ => false

/-- Check that `needle` is a leading segment of `hay`. -/
def listStartsWith : List Char → List Char → Bool
  | _, [] => true
  | [], _ :: _ => false
  | a :: as, b :: bs => a == b && listStartsWith as bs

/-- Check that `needle` occurs contiguously inside `hay`. -/
def listContainsSub : List Char → List Char → Bool
  | hay, needle =>
    if listStartsWith hay needle then true
    else
      match hay with
      | [] => false
      | _ :: rest => listContainsSub rest needle

/-- JavaScript `String.prototype.includes`: substring test. -/
def strIncludes (s sub : String) : Bool :=
  listContainsSub s.toList sub.toList

/-- JavaScript `Array.prototype.includes` (SameValueZero, which agrees
with the strict-equality model here since stored numbers are never NaN). -/
def arrIncludes (es : ValList) (v : Val) : Bool :=
  es.toList.any (fun e => jsStrictEq e v)

/-- Scanner underlying the model of ECMAScript regular-expression
compilation: checks that escape sequences are complete and that group
parentheses balance. Patterns rejected here (for example a lone open
parenthesis) are exactly the kind on which `new RegExp` throws a
`SyntaxError`. -/
def regexScan : List Char → Nat → Bool
  | [], 0 => true
  | [], _ + 1 => false
  | ['\\'], _ => false
  | '\\' :: _ :: rest, d => regexScan rest d
  | '(' :: rest, d => regexScan rest (d + 1)
  | ')' :: _, 0 => false
  | ')' :: rest, d + 1 => regexScan rest d
  | _ :: rest, d => regexScan rest d

/-- Model of `new RegExp(pattern)` compilation success: `true` when the
pattern is accepted, `false` when compilation throws a `SyntaxError`. -/
def regexValid (pattern : String) : Bool :=
  regexScan pattern.toList 0

/-- Model of `RegExp.prototype.test` for compiled patterns: literal
substring search. Faithful for metacharacter-free patterns, which are the
only ones exercised anywhere in this development; full ECMAScript
matching is outside the model. -/
def regexTest (pattern s : String) : Bool :=
  strIncludes s pattern

/-- A calendar date, used to model the host clock and `new Date(..)`. -/
structure JsDate where
  year : Int
  month : Nat
  day : Nat
deriving DecidableEq

/-- Model of `new Date(dob)` for ISO `YYYY-MM-DD` strings: parses and
range-checks the components; any other input is an invalid date
(`none`). -/
def parseIsoDate (s : String) : Option JsDate :=
  match s.toList with
  | [y1, y2, y3, y4, '-', m1, m2, '-', d1, d2] =>
    match digitVal y1, digitVal y2, digitVal y3, digitVal y4,
          digitVal m1, digitVal m2, digitVal d1, digitVal d2 with
    | some a, some b, some c, some d, some e, some f, some g, some h =>
      let year : Int := ((a * 10 + b) * 10 + c) * 10 + d
      let month := e * 10 + f
      let day := g * 10 + h
      if 1 ≤ month ∧ month ≤ 12 ∧ 1 ≤ day ∧ day ≤ 31 then
        some ⟨year, month, day⟩
      else none
    | _, _, _, _, _, _, _, _ => none
  | _ => none

/-- Embedding of `computeAge` from `engine.ts`: age in whole years at
`today` for a date-of-birth value. Falsy or unparsable inputs give
`null`; the year difference is decremented when the birthday has not yet
occurred this year. The host clock is threaded in as `today`. -/
def computeAge (today : JsDate) (dob : Val) : Option Int :=
  match dob with
  | Val.str s =>
    match parseIsoDate s with
    | none => none
    | some d =>
      let age := today.year - d.year
      let monthDiff : Int := (today.month : Int) - (d.month : Int)
      some (if monthDiff < 0 ∨ (monthDiff = 0 ∧ today.day < d.day) then age - 1 else age)
  | _ => none

/-! ### Rule data model

Embeddings of the raw YAML data types from
`inspector/frontend/src/lib/types/simulator.ts`. -/

/-- An `id`-carrying reference object, an element of the `department`
and `severity` metadata arrays. -/
structure IdRef where
  id : String
deriving DecidableEq

/-- The optional `metadata` of a terminate action. -/
structure ActionMeta where
  department : Option (List IdRef) := none
  severity : Option (List IdRef) := none
  reason : Option String := none
deriving DecidableEq

/-- Embedding of `RawAction`: an action attached to an option or to the
`on_submit`, `next` or `default` fields. -/
structure RawAction where
  action : String
  qid : Option (List String) := none
  metadata : Option ActionMeta := none
deriving DecidableEq

/-- Embedding of `RawOption`: a single option in a question. -/
structure RawOption where
  id : String
  label : String
  action : Option RawAction := none
deriving DecidableEq

/-- Embedding of `RawPredicate`: one predicate of a conditional rule. -/
structure RawPredicate where
  qid : String
  op : String
  value : Val
  field : Option String := none
deriving DecidableEq

/-- Embedding of `RawConditionalRule`: a when/then pair. -/
structure RawConditionalRule where
  «when» : List RawPredicate
  «then» : RawAction
deriving DecidableEq

/-- Embedding of `RawField`: a sub-field of a free_text_with_fields
question. -/
structure RawField where
  id : String
  label : Option String := none
  kind : Option String := none
deriving DecidableEq

/-- Embedding of `RawQuestion`: a question loaded from OLDCARTS/OPD YAML. -/
structure RawQuestion where
  qid : String
  question : String
  question_type : String
  options : Option (List RawOption) := none
  on_submit : Option RawAction := none
  next : Option RawAction := none
  rules : Option (List RawConditionalRule) := none
  «default» : Option RawAction := none
  fields : Option (List RawField) := none
  image : Option String := none
  min_value : Option Rat := none
  max_value : Option Rat := none
  step : Option Rat := none
  default_value : Option Rat := none
deriving DecidableEq

/-- Embedding of `RawDemographicField` from demographic.yaml. -/
structure RawDemographicField where
  qid : String
  key : String
  field_name : String
  field_name_th : String
  type : String
  optional : Option Bool := none
  values : Option Val := none
  values_path : Option String := none
deriving DecidableEq

/-- Embedding of `RawErCriticalItem`: an ER critical screen item. -/
structure RawErCriticalItem where
  qid : String
  text : String
  reason : Option String := none
deriving DecidableEq

/-- Embedding of `RawErChecklistItem`: an adult or pediatric ER checklist
item. -/
structure RawErChecklistItem where
  qid : String
  text : String
  reason : Option String := none
  severity : Option IdRef := none
  min_severity : Option IdRef := none
  department : Option (List IdRef) := none
deriving DecidableEq

/-- Embedding of `ConstantEntry`: a department, severity level or NHSO
symptom constant. -/
structure ConstantEntry where
  id : String
  name : String
  name_th : Option String := none
deriving DecidableEq

/-- Embedding of `SimulatorDataResponse`: the full rule-data payload.
`Record<string, ...>` maps are association lists in key order. -/
structure SimulatorDataResponse where
  demographic : List RawDemographicField := []
  er_critical : List RawErCriticalItem := []
  er_adult : List (String × List RawErChecklistItem) := []
  er_pediatric : List (String × List RawErChecklistItem) := []
  oldcarts : List (String × List RawQuestion) := []
  opd : List (String × List RawQuestion) := []
  nhso_symptoms : List ConstantEntry := []
  severity_levels : List ConstantEntry := []
  departments : List ConstantEntry := []
deriving DecidableEq

/-- Lookup in an embedded `Record<string, A>` by key. -/
def recGet {A : Type} (m : List (String × A)) (k : String) : Option A :=
  (m.find? (fun kv => kv.1 == k)).map (fun kv => kv.2)

/-- Embedded JavaScript exceptions: the ways the evaluation path can
throw. `regexError` is a `SyntaxError` from `new RegExp`, `typeError` a
`TypeError` from calling a method on a non-object, and `stackOverflow`
the `RangeError` raised by unbounded recursion (also used when the
fuel that models the resolve loop runs out). -/
inductive EngineErr where
  | regexError
  | typeError
  | stackOverflow
deriving DecidableEq

/-! ### Evaluator

Embedding of `evaluator.ts` (the client-side port of the Python
ConditionalEvaluator). -/

/-- JavaScript index access `v[i]` used by the `between` operator on the
expected value. Indexing `null` or `undefined` throws a `TypeError`;
strings index to single characters; objects fall back to property
lookup by the decimal key. -/
def jsIndex (v : Val) (i : Nat) : Except EngineErr Val :=
  match v with
  | Val.undef => .error .typeError
  | Val.null => .error .typeError
  | Val.arr es => .ok ((es.toList.get? i).getD Val.undef)
  | Val.str s =>
    match s.toList.get? i with
    | some c => .ok (Val.str (String.mk [c]))
    | none => .ok Val.undef
  | Val.obj m => .ok (jsGet m.toList (toString i))
  | _ => .ok Val.undef

/-- Numeric `<` against a possibly-NaN right operand (NaN compares
false). -/
def numLt (a : Rat) : Option Rat → Bool
  | some v => a < v
  | none => false

/-- Numeric `<=` against a possibly-NaN right operand. -/
def numLe (a : Rat) : Option Rat → Bool
  | some v => a ≤ v
  | none => false

/-- Numeric `>` against a possibly-NaN right operand. -/
def numGt (a : Rat) : Option Rat → Bool
  | some v => a > v
  | none => false

/-- Numeric `>=` against a possibly-NaN right operand. -/
def numGe (a : Rat) : Option Rat → Bool
  | some v => a ≥ v
  | none => false

/-- Embedding of `compare` from `evaluator.ts`: apply a comparison
operator between an answer and an expected value, with JavaScript type
coercion for numeric comparisons. Exceptions of the JavaScript code
(`new RegExp` on an invalid pattern, method calls on non-arrays) are
embedded as `Except` errors. -/
def compare (op : String) (answer value : Val) : Except EngineErr Bool :=
  if op == "eq" then .ok (jsStrictEq answer value)
  else if op == "ne" then .ok (!jsStrictEq answer value)
  else if op == "lt" || op == "le" || op == "gt" || op == "ge" || op == "between" then
    match toNumber answer with
    | none => .ok false
    | some ansNum =>
      if op == "lt" then .ok (numLt ansNum (toNumber value))
      else if op == "le" then .ok (numLe ansNum (toNumber value))
      else if op == "gt" then .ok (numGt ansNum (toNumber value))
      else if op == "ge" then .ok (numGe ansNum (toNumber value))
      else do
        let lo ← jsIndex value 0
        let hi ← jsIndex value 1
        .ok (numGe ansNum (toNumber lo) && numLe ansNum (toNumber hi))
  else if op == "contains" then
    match answer with
    | Val.arr es => .ok (arrIncludes es value)
    | _ => .ok (strIncludes (jsToString answer) (jsToString value))
  else if op == "not_contains" then
    match answer with
    | Val.arr es => .ok (!arrIncludes es value)
    | _ => .ok (!strIncludes (jsToString answer) (jsToString value))
  else if op == "contains_any" then
    match value with
    | Val.arr vals =>
      match answer with
      | Val.arr es => .ok (vals.toList.any (fun v => arrIncludes es v))
      | _ => .ok (vals.toList.any (fun v => strIncludes (jsToString answer) (jsToString v)))
    | _ => .error .typeError
  else if op == "contains_all" then
    match value with
    | Val.arr vals =>
      match answer with
      | Val.arr es => .ok (vals.toList.all (fun v => arrIncludes es v))
      | _ => .ok (vals.toList.all (fun v => strIncludes (jsToString answer) (jsToString v)))
    | _ => .error .typeError
  else if op == "matches" then
    if regexValid (jsToString value) then
      .ok (regexTest (jsToString value) (jsToString answer))
    else
      .error .regexError
  else
    .ok false

/-- Embedding of `evalPredicate` from `evaluator.ts`: evaluate a single
predicate against the answers dictionary. An unanswered qid yields
false; a sub-field drill on a non-object answer yields false. -/
def evalPredicate (pred : RawPredicate) (answers : AnswerMap) : Except EngineErr Bool :=
  let answer := jsGet answers pred.qid
  if answer == Val.undef || answer == Val.null then .ok false
  else
    match pred.field with
    | none => compare pred.op answer pred.value
    | some f =>
      match answer with
      | Val.obj m => compare pred.op (jsGet m.toList f) pred.value
      | _ => .ok false

/-- Embedding of `evalConditional` from `evaluator.ts`: evaluate rules in
order, first rule whose AND-ed predicates all hold wins; fall back to the
default action (or no action) when no rule matches. -/
def evalConditional (rules : List RawConditionalRule) (defaultAction : Option RawAction)
    (answers : AnswerMap) : Except EngineErr (Option RawAction) :=
  match rules with
  | [] => .ok defaultAction
  | rule :: rest => do
    if (← rule.when.allM (fun pred => evalPredicate pred answers)) then
      .ok (some rule.then)
    else
      evalConditional rest defaultAction answers

/-- Embedding of `evalGenderFilter` from `evaluator.ts`: case-insensitive,
trimmed match of the gender against each option id or label; first match
wins; the falsy empty label is never consulted. -/
def evalGenderFilter (options : List RawOption) (gender : String) : Option RawAction :=
  let genderLower := jsTrim (jsToLower gender)
  match options.find? (fun opt =>
      jsToLower opt.id == genderLower ||
      (opt.label != "" && jsToLower opt.label == genderLower)) with
  | some opt => opt.action
  | none => none

/-- The structured-id operators accepted by the age-filter pattern. -/
def ageIdOps : List String := ["lt", "lte", "le", "gt", "gte", "ge"]

/-- Parse an age-filter option id against the anchored pattern
`(lt|lte|le|gt|gte|ge)_(digits[.digits])`. -/
def parseAgeId (idStr : String) : Option (String × Rat) :=
  match (splitOnChar '_' idStr.toList).map String.mk with
  | [op, numPart] =>
    if ageIdOps.contains op then
      (parseNumLit numPart).map (fun t => (op, t))
    else none
  | _ => none

/-- Parse an age-filter option label against the anchored pattern
`([<>]=?)\s*(digits[.digits])`. -/
def parseAgeLabel (label : String) : Option (String × Rat) :=
  let parseRest (op : String) (rest : List Char) : Option (String × Rat) :=
    (parseNumLit (String.mk (dropLeadingSpaces rest))).map (fun t => (op, t))
  match label.toList with
  | '<' :: '=' :: rest => parseRest "<=" rest
  | '<' :: rest => parseRest "<" rest
  | '>' :: '=' :: rest => parseRest ">=" rest
  | '>' :: rest => parseRest ">" rest
  | _ => none

/-- Apply a structured-id age operator to the age and threshold. -/
def applyAgeIdOp (op : String) (age threshold : Rat) : Bool :=
  if op == "lt" then age < threshold
  else if op == "le" || op == "lte" then age ≤ threshold
  else if op == "gt" then age > threshold
  else if op == "ge" || op == "gte" then age ≥ threshold
  else false

/-- Apply a label age operator to the age and threshold. -/
def applyAgeLabelOp (op : String) (age threshold : Rat) : Bool :=
  if op == "<" then age < threshold
  else if op == "<=" then age ≤ threshold
  else if op == ">" then age > threshold
  else if op == ">=" then age ≥ threshold
  else false

/-- The option-matching criterion of one iteration of the age-filter loop:
the structured id pattern is tried first and, when it parses, decides the
option alone; otherwise the label pattern is consulted. -/
def optionMatchesAge (age : Rat) (opt : RawOption) : Bool :=
  match parseAgeId (jsToLower opt.id) with
  | some (op, threshold) => applyAgeIdOp op age threshold
  | none =>
    match parseAgeLabel (jsTrim opt.label) with
    | some (op, threshold) => applyAgeLabelOp op age threshold
    | none => false

/-- The for-loop of `evalAgeFilter`: `some r` embeds an early `return r`
on the first matching option, `none` means the loop fell through. -/
def evalAgeFilterLoop (age : Rat) : List RawOption → Option (Option RawAction)
  | [] => none
  | opt :: rest =>
    if optionMatchesAge age opt then some opt.action
    else evalAgeFilterLoop age rest

/-- Embedding of `evalAgeFilter` from `evaluator.ts`: match the patient
age against the option thresholds via the id pattern, falling back to the
label pattern per option; when nothing matches, return the last option's
action; a missing age yields no action. -/
def evalAgeFilter (options : List RawOption) (age : Option Rat) : Option RawAction :=
  match age with
  | none => none
  | some a =>
    match evalAgeFilterLoop a options with
    | some r => r
    | none =>
      match options.getLast? with
      | some lastOpt => lastOpt.action
      | none => none

/-! ### Resolution engine

Embedding of `engine.ts`: the pure functions that determine the next
user-facing question or termination. -/

/-- Question types the engine auto-evaluates, never shown to the user. -/
def AUTO_EVAL_TYPES : List String := ["gender_filter", "age_filter", "conditional"]

/-- Default ER severity for phase-1 critical items (`engine.ts`). -/
def DEFAULT_ER_SEVERITY : String := "sev003"

/-- Default ER department for phase-1 critical items (`engine.ts`). -/
def DEFAULT_ER_DEPARTMENT : String := "dept002"

/-- Patients younger than this use the pediatric ER checklist. -/
def PEDIATRIC_AGE_THRESHOLD : Int := 15

/-- An id resolved to its display name. -/
structure NamedRef where
  id : String
  name : String
deriving DecidableEq

/-- Embedding of `TerminationResult`: the outcome shown when the
simulation terminates. -/
structure TerminationResult where
  type : String
  departments : List NamedRef
  severity : Option NamedRef
  reason : Option String
deriving DecidableEq

/-- The two sequential question sources. -/
inductive Src where
  | oldcarts
  | opd
deriving DecidableEq

/-- The question table of a source. -/
def srcQuestions (rd : SimulatorDataResponse) : Src → List (String × List RawQuestion)
  | .oldcarts => rd.oldcarts
  | .opd => rd.opd

/-- The engine environment: the shared read-only rule data, the host
clock, and the fuel bounding the resolve loop (whose JavaScript original
relies on the rule graph being acyclic and diverges otherwise). -/
structure Env where
  ruleData : SimulatorDataResponse
  today : JsDate
  fuel : Nat

/-- Embedding of `getFirstQid`: the first question id for a
source/symptom, or none. -/
def getFirstQid (rd : SimulatorDataResponse) (source : Src) (symptom : String) : Option String :=
  match recGet (srcQuestions rd source) symptom with
  | none => none
  | some [] => none
  | some (q :: _) => some q.qid

/-- Embedding of `buildQuestionMap` followed by `Map.get`: the question
with the given qid; later duplicates overwrite earlier ones, hence the
reversed search. -/
def qMapGet (questions : List RawQuestion) (qid : String) : Option RawQuestion :=
  questions.reverse.find? (fun q => q.qid == qid)

/-- Department display name via the `deptMap` built in `engine.ts`
(`Map.get(id) ?? id`; later duplicate ids overwrite earlier ones). -/
def resolveDeptName (rd : SimulatorDataResponse) (id : String) : String :=
  match rd.departments.reverse.find? (fun d => d.id == id) with
  | some d => d.name
  | none => id

/-- Severity display name via the `sevMap` built in `engine.ts`. -/
def resolveSevName (rd : SimulatorDataResponse) (id : String) : String :=
  match rd.severity_levels.reverse.find? (fun s => s.id == id) with
  | some s => s.name
  | none => id

/-- Embedding of `determineAction`: which action a user answer fires,
based on the question type. -/
def determineAction (question : RawQuestion) (value : Val) : Option RawAction :=
  let qt := question.question_type
  if qt == "single_select" || qt == "image_single_select" then
    match (question.options.getD []).find? (fun opt => jsStrictEq (Val.str opt.id) value) with
    | some opt => opt.action
    | none => none
  else if qt == "multi_select" || qt == "image_multi_select" then
    question.next
  else if qt == "free_text" || qt == "free_text_with_fields" || qt == "number_range" then
    question.on_submit
  else
    none

/-- Embedding of the `ActionResult` discriminated union returned by
`processAction`. -/
inductive ActionResult where
  | cont
  | advanceToOpd
  | terminate (t : TerminationResult)
deriving DecidableEq

/-- Embedding of `processAction`: process an action against the pending
queue. The queue is passed and returned explicitly, modelling the
in-place `unshift` of the JavaScript code; goto targets already answered
or already queued are filtered out before prepending. -/
def processAction (rd : SimulatorDataResponse) (action : RawAction) (pending : List String)
    (answers : AnswerMap) (currentPhase : Nat) : ActionResult × List String :=
  if action.action == "goto" then
    let newQids := (action.qid.getD []).filter
      (fun q => !containsKey answers q && !pending.contains q)
    (.cont, newQids ++ pending)
  else if action.action == "opd" then
    (.advanceToOpd, pending)
  else if action.action == "terminate" then
    let meta := action.metadata.getD {}
    let deptIds := (meta.department.getD []).map (fun d => d.id)
    let sevId := match meta.severity.getD [] with
      | [] => none
      | s :: _ => some s.id
    (.terminate
      { type := if currentPhase < 5 then "terminated" else "completed"
        departments := deptIds.map (fun id => ⟨id, resolveDeptName rd id⟩)
        severity := sevId.map (fun id => ⟨id, resolveSevName rd id⟩)
        reason := meta.reason }, pending)
  else
    (.cont, pending)

/-- Embedding of the `ResolveResult` discriminated union returned by
`resolveNext`. -/
inductive ResolveResult where
  | question (q : RawQuestion) (pending : List String)
  | terminate (t : TerminationResult) (pending : List String)
  | advanceToOpd (pending : List String)
  | exhausted (pending : List String)
deriving DecidableEq

/-- Embedding of `autoEvaluate`: resolve a filter/conditional question to
an action, or none when nothing matches. -/
def autoEvaluate (env : Env) (question : RawQuestion) (answers demographics : AnswerMap) :
    Except EngineErr (Option RawAction) :=
  let qt := question.question_type
  if qt == "conditional" then
    evalConditional (question.rules.getD []) question.default answers
  else if qt == "age_filter" then
    let age : Option Rat :=
      match jsGet demographics "age" with
      | Val.num a => some a
      | _ => (computeAge env.today (jsGet demographics "date_of_birth")).map (fun i => (i : Rat))
    .ok (evalAgeFilter (question.options.getD []) age)
  else if qt == "gender_filter" then
    let g := match jsGet demographics "gender" with
      | Val.undef => ""
      | Val.null => ""
      | v => jsToString v
    .ok (evalGenderFilter (question.options.getD []) g)
  else
    .ok none

/-- The two mutable arrays of `resolveNext`: the array supplied by the
caller, and the working queue copied from it at entry; every mutation in
the loop targets `queue` only. -/
structure RNState where
  caller : List String
  queue : List String
deriving DecidableEq

/-- The while-loop of `resolveNext`, by fuel. Each iteration pops the
front qid, skips answered or unknown ones, auto-evaluates
filter/conditional questions (processing the resulting action), and stops
at the first user-facing question, terminal action, OPD signal, or when
the queue empties. Running out of fuel embeds divergence of the
JavaScript loop on a cyclic rule graph. -/
def rnLoop (env : Env) (questions : List RawQuestion) (answers demoWithAge : AnswerMap)
    (phase : Nat) : Nat → RNState → Except EngineErr ResolveResult × RNState
  | 0, s => (.error .stackOverflow, s)
  | fuel + 1, s =>
    match s.queue with
    | [] => (.ok (.exhausted []), s)
    | qid :: rest =>
      let s1 : RNState := { s with queue := rest }
      if containsKey answers qid then
        rnLoop env questions answers demoWithAge phase fuel s1
      else
        match qMapGet questions qid with
        | none => rnLoop env questions answers demoWithAge phase fuel s1
        | some question =>
          if AUTO_EVAL_TYPES.contains question.question_type then
            match autoEvaluate env question answers demoWithAge with
            | .error e => (.error e, s1)
            | .ok none => rnLoop env questions answers demoWithAge phase fuel s1
            | .ok (some action) =>
              let pa := processAction env.ruleData action s1.queue answers phase
              let s2 : RNState := { s1 with queue := pa.2 }
              match pa.1 with
              | .terminate t => (.ok (.terminate t s2.queue), s2)
              | .advanceToOpd => (.ok (.advanceToOpd s2.queue), s2)
              | .cont => rnLoop env questions answers demoWithAge phase fuel s2
          else
            (.ok (.question question s1.queue), s1)

/-- Embedding of `resolveNext` keeping both returned result and the final
contents of the two arrays, so that the frame effect on the caller's
array is expressible. The working queue is a copy of the caller's
array. -/
def resolveNextFull (env : Env) (source : Src) (symptom : String) (pending : List String)
    (answers demographics : AnswerMap) (phase : Nat) :
    Except EngineErr ResolveResult × RNState :=
  let questions := (recGet (srcQuestions env.ruleData source) symptom).getD []
  let demoWithAge :=
    if containsKey demographics "age" then demographics
    else
      match computeAge env.today (jsGet demographics "date_of_birth") with
      | some a => insertObj demographics "age" (Val.num (a : Rat))
      | none => demographics
  rnLoop env questions answers demoWithAge phase env.fuel { caller := pending, queue := pending }

/-- Embedding of `resolveNext`: the result component alone. -/
def resolveNext (env : Env) (source : Src) (symptom : String) (pending : List String)
    (answers demographics : AnswerMap) (phase : Nat) : Except EngineErr ResolveResult :=
  (resolveNextFull env source symptom pending answers demographics phase).1

/-- Embedding of `resolveErChecklistTermination`: the first positive ER
checklist item across the ordered symptom iteration determines the
severity (pediatric `severity` or adult `min_severity`, with configured
defaults) and department (first department entry, else the default). -/
def resolveErChecklistTermination (env : Env) (flags : AnswerMap) (symptoms : List String)
    (age : Option Int) : Option TerminationResult :=
  let pediatric : Bool := match age with
    | some a => decide (a < PEDIATRIC_AGE_THRESHOLD)
    | none => false
  let source := if pediatric then env.ruleData.er_pediatric else env.ruleData.er_adult
  let items := (symptoms.map (fun sym => (recGet source sym).getD [])).flatten
  match items.find? (fun item => jsGet flags item.qid == Val.bool true) with
  | none => none
  | some item =>
    let sevField := if pediatric then item.severity else item.min_severity
    let sevId := match sevField with
      | some r => r.id
      | none => DEFAULT_ER_SEVERITY
    let deptId := match item.department with
      | some (d :: _) => d.id
      | _ => DEFAULT_ER_DEPARTMENT
    some
      { type := "terminated"
        departments := [⟨deptId, resolveDeptName env.ruleData deptId⟩]
        severity := some ⟨sevId, resolveSevName env.ruleData sevId⟩
        reason := some ("ER checklist positive: " ++ item.qid) }

/-- Embedding of `buildErCriticalTermination`: any positive phase-1
critical item routes to the default emergency department and severity. -/
def buildErCriticalTermination (rd : SimulatorDataResponse) (positiveQids : List String) :
    TerminationResult :=
  { type := "terminated"
    departments := [⟨DEFAULT_ER_DEPARTMENT, resolveDeptName rd DEFAULT_ER_DEPARTMENT⟩]
    severity := some ⟨DEFAULT_ER_SEVERITY, resolveSevName rd DEFAULT_ER_SEVERITY⟩
    reason := some ("ER critical positive: " ++ joinSep ", " positiveQids) }

/-! ### Session state machine

Embedding of the `useSimulator` hook: the session state, the history
stack, the text overrides, and the state transitions `submitAnswer`,
`goBack`, `reset`. React `useState` cells become record fields; a
sequence of `setX` calls inside one handler becomes a record update
(each field is written at most once per call, so batching semantics and
sequential assignment agree). -/

/-- Embedding of `TextOverride`: display-text overrides for one question. -/
structure TextOverride where
  questionText : Option String := none
  optionLabels : Option (List (String × String)) := none
deriving DecidableEq

/-- The `textOverrides` dictionary: qid to its display overrides. -/
abbrev Overrides := List (String × TextOverride)

/-- Update in an embedded `Record<string, A>` by key, preserving
JavaScript insertion-order semantics. -/
def recSet {A : Type} (m : List (String × A)) (k : String) (v : A) : List (String × A) :=
  if m.any (fun kv => kv.1 == k) then
    m.map (fun kv => if kv.1 == k then (k, v) else kv)
  else
    m ++ [(k, v)]

/-- The core simulation state: the eleven `useState` cells of the hook
other than history and text overrides. -/
structure SessionState where
  phase : Nat
  demographics : AnswerMap
  allAnswers : AnswerMap
  primarySymptom : String
  secondarySymptoms : List String
  erCriticalFlags : AnswerMap
  erChecklistFlags : AnswerMap
  pending : List String
  currentQuestion : Option RawQuestion
  terminated : Bool
  result : Option TerminationResult
deriving DecidableEq

/-- Embedding of `HistoryEntry`: a snapshot of the nine snapshotted state
fields plus a label and the submitted raw answer (`terminated` and
`result` are not snapshotted). -/
structure HistoryEntry where
  phase : Nat
  demographics : AnswerMap
  allAnswers : AnswerMap
  primarySymptom : String
  secondarySymptoms : List String
  erCriticalFlags : AnswerMap
  erChecklistFlags : AnswerMap
  pending : List String
  currentQuestion : Option RawQuestion
  label : String
  answerValue : Val
deriving DecidableEq

/-- The full hook state: session state, history stack, text overrides. -/
structure FullState where
  sess : SessionState
  history : List HistoryEntry
  textOverrides : Overrides
deriving DecidableEq

/-- Embedding of `snapshot`: a value-copy of the current state for
history (spreads and array copies are value equality here). -/
def snapshotE (s : SessionState) (label : String) (answerValue : Val) : HistoryEntry :=
  { phase := s.phase
    demographics := s.demographics
    allAnswers := s.allAnswers
    primarySymptom := s.primarySymptom
    secondarySymptoms := s.secondarySymptoms
    erCriticalFlags := s.erCriticalFlags
    erChecklistFlags := s.erChecklistFlags
    pending := s.pending
    currentQuestion := s.currentQuestion
    label := label
    answerValue := answerValue }

/-- Embedding of `restore`: replace the nine snapshotted fields from the
entry and clear `terminated` and `result`. -/
def restoreE (e : HistoryEntry) : SessionState :=
  { phase := e.phase
    demographics := e.demographics
    allAnswers := e.allAnswers
    primarySymptom := e.primarySymptom
    secondarySymptoms := e.secondarySymptoms
    erCriticalFlags := e.erCriticalFlags
    erChecklistFlags := e.erChecklistFlags
    pending := e.pending
    currentQuestion := e.currentQuestion
    terminated := false
    result := none }

/-- The generic completion result used when the queues are exhausted
without an explicit terminal action. -/
def completedResult : TerminationResult :=
  { type := "completed"
    departments := []
    severity := none
    reason := some "All phases completed without explicit termination" }

/-- Embedding of `enterSequentialPhase` instantiated at `nextPhase = 5`.
The `advance_to_opd` branch of the JavaScript code calls
`enterSequentialPhase(5, ...)` again with identical arguments, which
never terminates (a stack overflow at runtime); that branch is embedded
as the corresponding error. -/
def enterSequentialPhase5 (env : Env) (st : SessionState) (symptom : String)
    (answers demos : AnswerMap) : Except EngineErr SessionState :=
  match getFirstQid env.ruleData .opd symptom with
  | none =>
    .ok { st with phase := 5, terminated := true, result := some completedResult }
  | some firstQid =>
    match resolveNext env .opd symptom [firstQid] answers demos 5 with
    | .error e => .error e
    | .ok (.question q p) =>
      .ok { st with phase := 5, currentQuestion := some q, pending := p }
    | .ok (.terminate t p) =>
      .ok { st with phase := 5, terminated := true, result := some t, pending := p }
    | .ok (.advanceToOpd _) => .error .stackOverflow
    | .ok (.exhausted _) =>
      .ok { st with phase := 5, terminated := true, result := some completedResult }

/-- Embedding of `enterSequentialPhase` instantiated at `nextPhase = 4`:
a missing or exhausted OLDCARTS tree falls through to phase 5, as does an
OPD action produced by the auto-evaluation chain. -/
def enterSequentialPhase4 (env : Env) (st : SessionState) (symptom : String)
    (answers demos : AnswerMap) : Except EngineErr SessionState :=
  match getFirstQid env.ruleData .oldcarts symptom with
  | none => enterSequentialPhase5 env st symptom answers demos
  | some firstQid =>
    match resolveNext env .oldcarts symptom [firstQid] answers demos 4 with
    | .error e => .error e
    | .ok (.question q p) =>
      .ok { st with phase := 4, currentQuestion := some q, pending := p }
    | .ok (.terminate t p) =>
      .ok { st with phase := 4, terminated := true, result := some t, pending := p }
    | .ok (.advanceToOpd _) => enterSequentialPhase5 env st symptom answers demos
    | .ok (.exhausted _) => enterSequentialPhase5 env st symptom answers demos

/-- Embedding of `handleResolveResult`: apply a `ResolveResult` to the
state. Queue exhaustion in phase 4 advances to phase 5; exhaustion in any
other phase completes the session with the generic reason. -/
def handleResolveResult (env : Env) (st : SessionState) (resolved : ResolveResult)
    (answers : AnswerMap) : Except EngineErr SessionState :=
  match resolved with
  | .question q p => .ok { st with currentQuestion := some q, pending := p }
  | .terminate t p => .ok { st with terminated := true, result := some t, pending := p }
  | .advanceToOpd _ => enterSequentialPhase5 env st st.primarySymptom answers st.demographics
  | .exhausted _ =>
    if st.phase == 4 then
      enterSequentialPhase5 env st st.primarySymptom answers st.demographics
    else
      .ok { st with terminated := true, result := some completedResult }

/-- Embedding of the per-phase body of `submitAnswer` (state updates
only; the uniform history push is factored into `submitAnswer` below).
Values flow through the unchecked TypeScript casts: dictionaries via
`asObjOrEmpty`, the symptom strings via `jsToString`, a non-array
secondary-symptom value via the empty list. -/
def submitAnswerCore (env : Env) (s : SessionState) (v : Val) : Except EngineErr SessionState :=
  if s.phase = 0 then
    .ok { s with demographics := asObjOrEmpty v, phase := 1 }
  else if s.phase = 1 then
    let flags := asObjOrEmpty v
    let s1 := { s with erCriticalFlags := flags, allAnswers := mergeObj s.allAnswers flags }
    let positiveQids := (flags.filter (fun kv => kv.2 == Val.bool true)).map (fun kv => kv.1)
    if positiveQids.isEmpty then
      .ok { s1 with phase := 2 }
    else
      .ok { s1 with terminated := true,
                    result := some (buildErCriticalTermination env.ruleData positiveQids) }
  else if s.phase = 2 then
    let sel := asObjOrEmpty v
    .ok { s with
          primarySymptom := jsToString (jsGet sel "primary_symptom")
          secondarySymptoms :=
            (match jsGet sel "secondary_symptoms" with
             | Val.arr es => es.toList.map jsToString
             | _ => [])
          phase := 3 }
  else if s.phase = 3 then
    let flags := asObjOrEmpty v
    let s1 := { s with erChecklistFlags := flags, allAnswers := mergeObj s.allAnswers flags }
    let symptoms := s.primarySymptom :: s.secondarySymptoms
    let age := computeAge env.today (jsGet s.demographics "date_of_birth")
    match resolveErChecklistTermination env flags symptoms age with
    | some t => .ok { s1 with terminated := true, result := some t }
    | none => enterSequentialPhase4 env s1 s.primarySymptom s1.allAnswers s.demographics
  else
    match s.currentQuestion with
    | none => .ok s
    | some q =>
      let nextAnswers := insertObj s.allAnswers q.qid v
      let s1 := { s with allAnswers := nextAnswers }
      let source : Src := if s.phase = 4 then .oldcarts else .opd
      match determineAction q v with
      | none =>
        match resolveNext env source s.primarySymptom s.pending nextAnswers s.demographics s.phase with
        | .error e => .error e
        | .ok r => handleResolveResult env s1 r nextAnswers
      | some action =>
        let pa := processAction env.ruleData action s.pending nextAnswers s.phase
        match pa.1 with
        | .terminate t =>
          .ok { s1 with terminated := true, result := some t, pending := pa.2 }
        | .advanceToOpd =>
          enterSequentialPhase5 env s1 s.primarySymptom nextAnswers s.demographics
        | .cont =>
          match resolveNext env source s.primarySymptom pa.2 nextAnswers s.demographics s.phase with
          | .error e => .error e
          | .ok r => handleResolveResult env s1 r nextAnswers

/-- The history label of a submission, per phase. -/
def submitLabel (s : SessionState) (v : Val) : String :=
  if s.phase = 0 then "Demographics submitted"
  else if s.phase = 1 then "ER Critical Screen submitted"
  else if s.phase = 2 then "Symptoms: " ++ jsToString (jsGet (asObjOrEmpty v) "primary_symptom")
  else if s.phase = 3 then "ER Checklist submitted"
  else
    match s.currentQuestion with
    | some q => q.question
    | none => ""

/-- A submission is effective (reaches a state-mutating branch and pushes
a history snapshot) unless the session is terminated, the phase is past
5, or a sequential phase has no current question. -/
def effectiveB (s : SessionState) : Bool :=
  !s.terminated &&
    (s.phase ≤ 3 || ((s.phase == 4 || s.phase == 5) && s.currentQuestion.isSome))

/-- Embedding of `submitAnswer` on the full hook state: ineffective calls
return without touching anything (the early `return` statements of the
hook); effective calls push one history snapshot of the pre-call state
and apply the per-phase body. Text overrides are never touched. -/
def submitAnswer (env : Env) (f : FullState) (v : Val) : Except EngineErr FullState :=
  if effectiveB f.sess then
    (submitAnswerCore env f.sess v).map (fun s' =>
      { sess := s'
        history := f.history ++ [snapshotE f.sess (submitLabel f.sess v) v]
        textOverrides := f.textOverrides })
  else
    .ok f

/-- Embedding of `goBack`: pop the most recent history entry and restore
it; a no-op when the history is empty. -/
def goBack (f : FullState) : FullState :=
  match f.history.getLast? with
  | none => f
  | some e =>
    { sess := restoreE e, history := f.history.dropLast, textOverrides := f.textOverrides }

/-- The state of a freshly created session (phase 0, empty state). -/
def initSession : SessionState :=
  { phase := 0
    demographics := []
    allAnswers := []
    primarySymptom := ""
    secondarySymptoms := []
    erCriticalFlags := []
    erChecklistFlags := []
    pending := []
    currentQuestion := none
    terminated := false
    result := none }

/-- Embedding of `reset`: clear the simulation state and history; the
text overrides are preserved across reset. -/
def reset (f : FullState) : FullState :=
  { sess := initSession, history := [], textOverrides := f.textOverrides }

/-- A fresh full hook state. -/
def initFull : FullState :=
  { sess := initSession, history := [], textOverrides := [] }

/-- Embedding of `setQuestionText`: override a question's display text.
Only the `textOverrides` dictionary is touched. -/
def setQuestionText (f : FullState) (qid text : String) : FullState :=
  let prev := (recGet f.textOverrides qid).getD {}
  { f with textOverrides := recSet f.textOverrides qid { prev with questionText := some text } }

/-- Embedding of `setOptionLabel`: override an option's display label.
Only the `textOverrides` dictionary is touched. -/
def setOptionLabel (f : FullState) (qid optionId label : String) : FullState :=
  let prev := (recGet f.textOverrides qid).getD {}
  let labels := prev.optionLabels.getD []
  { f with textOverrides :=
      (recSet f.textOverrides qid
        { prev with optionLabels := some (recSet labels optionId label) }) }

/-- A sequence of `submitAnswer` calls, stopping at the first exception. -/
def submitAnswerN (env : Env) : FullState → List Val → Except EngineErr FullState
  | f, [] => .ok f
  | f, v :: vs =>
    match submitAnswer env f v with
    | .ok f' => submitAnswerN env f' vs
    | .error e => .error e

/-- `n` successive `goBack` calls. -/
def goBackN : Nat → FullState → FullState
  | 0, f => f
  | n + 1, f => goBack (goBackN n f)

/-- Every submission in the sequence is effective and returns normally. -/
def effectiveSeqB (env : Env) : FullState → List Val → Bool
  | _, [] => true
  | f, v :: vs =>
    effectiveB f.sess &&
      (match submitAnswer env f v with
       | .ok f' => effectiveSeqB env f' vs
       | .error _ => false)

/-! ### Concrete rule data

A small concrete rule-data world used by witnesses and counterexamples:
one symptom with a two-option OLDCARTS question and a two-option OPD
question, the default emergency department and severity constants, and
empty ER checklists. -/

/-- A terminate action routing to the emergency department. -/
def cTermAction : RawAction :=
  { action := "terminate"
    metadata := some { department := some [⟨"dept002"⟩], severity := some [⟨"sev003"⟩],
                       reason := some "routing" } }

/-- The OLDCARTS question of the concrete world: answering `sudden`
fires an OPD action, `gradual` has no action. -/
def cQ1 : RawQuestion :=
  { qid := "hea_o_001", question := "How did the headache start?",
    question_type := "single_select",
    options := some [⟨"sudden", "Sudden", some { action := "opd" }⟩,
                     ⟨"gradual", "Gradual", none⟩] }

/-- The OPD question of the concrete world: answering `yes` terminates. -/
def cQOpd : RawQuestion :=
  { qid := "hea_opd_001", question := "Any fever?",
    question_type := "single_select",
    options := some [⟨"yes", "Yes", some cTermAction⟩, ⟨"no", "No", none⟩] }

/-- The concrete rule data. -/
def cRD : SimulatorDataResponse :=
  { er_adult := [("Headache", [])]
    er_pediatric := [("Headache", [])]
    oldcarts := [("Headache", [cQ1])]
    opd := [("Headache", [cQOpd])]
    severity_levels := [⟨"sev003", "Emergency", none⟩]
    departments := [⟨"dept002", "Emergency Medicine", none⟩] }

/-- The concrete engine environment. -/
def cEnv : Env := { ruleData := cRD, today := ⟨2026, 10, 12⟩, fuel := 100 }

/-- A demographics submission value. -/
def demoV : Val := Val.obj (ValFields.ofList [("gender", Val.str "male"), ("age", Val.num 30)])

/-- An all-negative ER critical submission. -/
def flagsFalseV : Val := Val.obj (ValFields.ofList [("emer_critical_001", Val.bool false)])

/-- An ER critical submission with one positive item. -/
def flagsTrueV : Val := Val.obj (ValFields.ofList [("emer_critical_001", Val.bool true)])

/-- A symptom-selection submission value. -/
def symptomV : Val := Val.obj (ValFields.ofList [("primary_symptom", Val.str "Headache")])

/-- An all-negative ER checklist submission. -/
def checklistV : Val := Val.obj (ValFields.ofList [("emer_adult_hea1", Val.bool false)])

/-! ### Claim C1 -/

/-- C1: the comparison function is claimed total for any operator, answer
and expected value. The first two conjuncts confirm two of its parts: an
unknown operator evaluates to false and a failed numeric coercion
evaluates to false. The third conjunct evaluates the code at the failing
input of the claim: a `matches` operator whose expected value is the
invalid regular-expression pattern `(` raises a `SyntaxError` (embedded
as `.error .regexError`) instead of returning false, contradicting the
claim and the documented intent. -/
theorem compare_unknown_op_and_nan_false_but_matches_throws :
    compare "unknown_op" (Val.str "x") (Val.str "y") = .ok false ∧
    compare "lt" (Val.str "abc") (Val.num 3) = .ok false ∧
    compare "matches" (Val.str "x") (Val.str "(") = .error .regexError := by
  refine ⟨by decide, by decide, by decide⟩

/-! ### Claim C7 -/

/-- An absent key reads as `undefined`. -/
theorem jsGet_eq_undef_of_not_containsKey (m : AnswerMap) (k : String)
    (h : containsKey m k = false) : jsGet m k = Val.undef := by
  unfold jsGet
  unfold containsKey at h
  rw [List.any_eq_false] at h
  have : m.find? (fun kv => kv.1 == k) = none := by
    rw [List.find?_eq_none]
    intro kv hkv
    simpa using h kv hkv
  rw [this]

/-- C7: for every predicate and answers map, a qid absent from the
answers makes `evalPredicate` return false, and a predicate with a
sub-field whose stored answer is not an object also returns false. -/
theorem evalPredicate_false_on_missing_qid_or_nonobject_answer
    (pred : RawPredicate) (answers : AnswerMap) :
    (containsKey answers pred.qid = false → evalPredicate pred answers = .ok false) ∧
    (pred.field.isSome = true →
      (∀ m : ValFields, jsGet answers pred.qid ≠ Val.obj m) →
      evalPredicate pred answers = .ok false) := by
  constructor
  · intro h
    unfold evalPredicate
    rw [jsGet_eq_undef_of_not_containsKey answers pred.qid h]
    rfl
  · intro hf hno
    unfold evalPredicate
    rcases hfield : pred.field with _ | f
    · rw [hfield] at hf; simp at hf
    · rcases hv : jsGet answers pred.qid with _ | _ | b | q | s | es | m <;> simp_all

/-- Witness for C7 at concrete inputs: an unanswered qid, and a
sub-field predicate whose stored answer is a string. -/
theorem evalPredicate_false_witness :
    containsKey [] "q1" = false ∧
    evalPredicate ⟨"q1", "eq", Val.str "x", none⟩ [] = .ok false ∧
    evalPredicate ⟨"q2", "eq", Val.str "x", some "f"⟩ [("q2", Val.str "s")] = .ok false := by
  refine ⟨by decide,
    (evalPredicate_false_on_missing_qid_or_nonobject_answer
      ⟨"q1", "eq", Val.str "x", none⟩ []).1 (by decide),
    (evalPredicate_false_on_missing_qid_or_nonobject_answer
      ⟨"q2", "eq", Val.str "x", some "f"⟩ [("q2", Val.str "s")]).2 (by decide) ?_⟩
  intro m h
  rw [show jsGet [("q2", Val.str "s")] "q2" = Val.str "s" from rfl] at h
  exact Val.noConfusion h

/-! ### Claim C6 -/

/-- Monadic bind on an `ok` value. -/
theorem except_bind_ok {ε α β : Type} (a : α) (f : α → Except ε β) :
    (Except.ok a : Except ε α) >>= f = f a := rfl

/-- Functorial map on an `ok` value. -/
theorem except_map_ok {ε α β : Type} (a : α) (f : α → β) :
    Except.map f (Except.ok a : Except ε α) = Except.ok (f a) := rfl

/-- Functorial map on an `error` value. -/
theorem except_map_err {ε α β : Type} (e : ε) (f : α → β) :
    Except.map f (Except.error e : Except ε α) = Except.error e := rfl

/-- When every element evaluates without an exception, the
short-circuiting monadic `every` agrees with the pure conjunction of the
successful results. -/
theorem allM_eq_all_of_isOk {α : Type} (f : α → Except EngineErr Bool) :
    ∀ l : List α, (∀ p ∈ l, (f p).isOk = true) →
      l.allM f = .ok (l.all (fun p => f p == .ok true)) := by
  intro l h
  induction l with
  | nil => rfl
  | cons p ps ih =>
    have hp : (f p).isOk = true := h p (List.mem_cons_self p ps)
    rcases hfp : f p with e | b
    · rw [hfp] at hp
      simp [Except.isOk, Except.toBool] at hp
    · have step : (p :: ps).allM f =
          f p >>= fun b => match b with | true => ps.allM f | false => pure false := rfl
      rw [step, hfp, except_bind_ok]
      cases b with
      | false => simp [List.all_cons, hfp]; rfl
      | true =>
        rw [ih (fun q hq => h q (List.mem_cons_of_mem _ hq))]
        simp [List.all_cons, hfp]

/-- C6 counterexample: the claim asserts that when no rule matches the
evaluator returns the default action (here: no action), for every rule
list. On a rule whose `matches` predicate carries the invalid pattern
`(`, the evaluator instead raises, so the claim fails as universally
stated. -/
theorem evalConditional_raises_on_invalid_regex :
    evalConditional [⟨[⟨"q1", "matches", Val.str "(", none⟩], { action := "opd" }⟩] none
      [("q1", Val.str "x")] = .error .regexError := by decide

/-- C6 (amended): provided every predicate of every rule evaluates
without raising, the conditional evaluator returns the `then` action of
the first rule (in declaration order) all of whose AND-ed predicates
evaluate true, else the default action, else no action. -/
theorem evalConditional_first_match (rules : List RawConditionalRule)
    (defaultAction : Option RawAction) (answers : AnswerMap)
    (hok : ∀ r ∈ rules, ∀ p ∈ r.when, (evalPredicate p answers).isOk = true) :
    evalConditional rules defaultAction answers =
      .ok (match rules.find?
              (fun r => r.when.all (fun p => evalPredicate p answers == .ok true)) with
           | some r => some r.then
           | none => defaultAction) := by
  induction rules with
  | nil => rfl
  | cons r rs ih =>
    have hr := allM_eq_all_of_isOk (fun p => evalPredicate p answers) r.when
      (hok r (List.mem_cons_self r rs))
    have step : evalConditional (r :: rs) defaultAction answers =
        (r.when.allM (fun p => evalPredicate p answers)) >>= fun b =>
          if b then .ok (some r.then) else evalConditional rs defaultAction answers := rfl
    rw [step, hr, except_bind_ok]
    by_cases hall : r.when.all (fun p => evalPredicate p answers == .ok true) = true
    · rw [@List.find?_cons_of_pos _
        (fun r => r.when.all (fun p => evalPredicate p answers == Except.ok true)) r rs hall]
      simp [hall]
    · rw [@List.find?_cons_of_neg _
        (fun r => r.when.all (fun p => evalPredicate p answers == Except.ok true)) r rs hall]
      simp only [Bool.not_eq_true] at hall
      rw [hall]
      simpa using ih (fun q hq => hok q (List.mem_cons_of_mem _ hq))

/-- A goto action used by witness rule data. -/
def cGotoQ1 : RawAction := { action := "goto", qid := some ["q1"] }

/-- A second goto action used by witness rule data. -/
def cGotoQ2 : RawAction := { action := "goto", qid := some ["q2"] }

/-- Conditional rules for the C6 witness: the first rule does not match
the stored answer, the second does. -/
def c6Rules : List RawConditionalRule :=
  [⟨[⟨"q1", "eq", Val.str "no", none⟩], cGotoQ1⟩,
   ⟨[⟨"q1", "eq", Val.str "yes", none⟩], cGotoQ2⟩]

/-- Witness for C6 at concrete inputs: both rules evaluate exception-free
and the second rule is the first match. -/
theorem evalConditional_first_match_witness :
    (∀ r ∈ c6Rules, ∀ p ∈ r.when, (evalPredicate p [("q1", Val.str "yes")]).isOk = true) ∧
    evalConditional c6Rules (some cGotoQ1) [("q1", Val.str "yes")] =
      .ok (match c6Rules.find?
              (fun r => r.when.all
                (fun p => evalPredicate p [("q1", Val.str "yes")] == .ok true)) with
           | some r => some r.then
           | none => some cGotoQ1) :=
  ⟨by decide, evalConditional_first_match c6Rules (some cGotoQ1) [("q1", Val.str "yes")] (by decide)⟩

/-! ### Claim C8 -/

/-- The age-filter loop returns the first matching option's action. -/
theorem evalAgeFilterLoop_eq_find (age : Rat) :
    ∀ opts : List RawOption,
      evalAgeFilterLoop age opts =
        (opts.find? (fun opt => optionMatchesAge age opt)).map (fun opt => opt.action) := by
  intro opts
  induction opts with
  | nil => rfl
  | cons o os ih =>
    by_cases h : optionMatchesAge age o = true
    · simp [evalAgeFilterLoop, h, List.find?_cons_of_pos _ h]
    · simp [evalAgeFilterLoop, h, List.find?_cons_of_neg _ h, ih]

/-- C8: for a non-empty age-filter option list, a missing age yields no
action; otherwise the first option matching the age (structured id
pattern first, label pattern as fallback) supplies the returned action,
and if no option matches, the last option's action is returned as the
default. -/
theorem evalAgeFilter_characterization (options : List RawOption) (age : Rat)
    (_hne : options ≠ []) :
    evalAgeFilter options none = none ∧
    evalAgeFilter options (some age) =
      (match options.find? (fun opt => optionMatchesAge age opt) with
       | some opt => opt.action
       | none =>
         match options.getLast? with
         | some lastOpt => lastOpt.action
         | none => none) := by
  refine ⟨rfl, ?_⟩
  show (match evalAgeFilterLoop age options with
        | some r => r
        | none =>
          match options.getLast? with
          | some lastOpt => lastOpt.action
          | none => none) = _
  rw [evalAgeFilterLoop_eq_find]
  rcases options.find? (fun opt => optionMatchesAge age opt) with _ | opt <;> rfl

/-- Age-filter options for the C8 witness: the structured ids `lt_15`
and `gte_15`. -/
def c8Opts : List RawOption :=
  [⟨"lt_15", "under 15", some cGotoQ1⟩, ⟨"gte_15", "15 or older", some cGotoQ2⟩]

/-- Witness for C8 at concrete inputs: age 10 selects the first option. -/
theorem evalAgeFilter_characterization_witness :
    c8Opts ≠ [] ∧
    evalAgeFilter c8Opts none = none ∧
    evalAgeFilter c8Opts (some 10) =
      (match c8Opts.find? (fun opt => optionMatchesAge 10 opt) with
       | some opt => opt.action
       | none =>
         match c8Opts.getLast? with
         | some lastOpt => lastOpt.action
         | none => none) :=
  ⟨by decide, (evalAgeFilter_characterization c8Opts 10 (by decide)).1,
   (evalAgeFilter_characterization c8Opts 10 (by decide)).2⟩

/-! ### Claim C2 -/

/-- C2 counterexample: the claim asserts the pending queue never acquires
duplicate entries even when a Goto's target list contains repeats. A goto
action with the repeated target list `a, a` against an empty queue and no
answers enqueues both copies: the filter checks the pre-call queue, not
the list being built. -/
theorem processAction_goto_duplicate_targets :
    (processAction cRD { action := "goto", qid := some ["a", "a"] } [] [] 4).2 = ["a", "a"] ∧
    ¬ (processAction cRD { action := "goto", qid := some ["a", "a"] } [] [] 4).2.Nodup :=
  ⟨by decide, by decide⟩

/-- C2 (amended): processing a Goto enqueues exactly those targets that
are neither a key of the answers map nor present in the pre-call pending
queue, prepended in order with multiplicity; consequently every newly
enqueued qid is unanswered and was not previously pending (but a target
list with repeats can still introduce duplicates). -/
theorem processAction_goto_characterization (rd : SimulatorDataResponse) (action : RawAction)
    (pending : List String) (answers : AnswerMap) (phase : Nat)
    (hgoto : action.action = "goto") :
    processAction rd action pending answers phase =
      (.cont, (action.qid.getD []).filter
        (fun q => !containsKey answers q && !pending.contains q) ++ pending) ∧
    ∀ q : String,
      q ∈ (processAction rd action pending answers phase).2 → q ∉ pending →
      containsKey answers q = false ∧ q ∈ action.qid.getD [] := by
  have heq : processAction rd action pending answers phase =
      (.cont, (action.qid.getD []).filter
        (fun q => !containsKey answers q && !pending.contains q) ++ pending) := by
    unfold processAction
    rw [hgoto]
    rfl
  refine ⟨heq, ?_⟩
  intro q hq hnp
  rw [heq] at hq
  rcases List.mem_append.mp hq with hmem | hmem
  · rcases List.mem_filter.mp hmem with ⟨hqin, hcond⟩
    rw [Bool.and_eq_true, Bool.not_eq_true', Bool.not_eq_true'] at hcond
    exact ⟨hcond.1, hqin⟩
  · exact absurd hmem hnp

/-- The goto action of the C2 witness. -/
def c2Action : RawAction := { action := "goto", qid := some ["b", "c"] }

/-- Witness for C2 at concrete inputs: target `c` is already pending and
is not re-enqueued; target `b` is new. -/
theorem processAction_goto_characterization_witness :
    c2Action.action = "goto" ∧
    (processAction cRD c2Action ["c"] [("a", Val.bool true)] 4 =
      (.cont, (c2Action.qid.getD []).filter
        (fun q => !containsKey [("a", Val.bool true)] q && !(["c"] : List String).contains q)
        ++ ["c"]) ∧
    ∀ q : String,
      q ∈ (processAction cRD c2Action ["c"] [("a", Val.bool true)] 4).2 →
      q ∉ (["c"] : List String) →
      containsKey [("a", Val.bool true)] q = false ∧ q ∈ c2Action.qid.getD []) :=
  ⟨rfl, processAction_goto_characterization cRD c2Action ["c"] [("a", Val.bool true)] 4 rfl⟩

/-! ### Claim C10 -/

/-- The resolve loop never writes the caller's array: every state it
threads carries the `caller` component unchanged. -/
theorem rnLoop_caller_invariant (env : Env) (questions : List RawQuestion)
    (answers demoWithAge : AnswerMap) (phase : Nat) :
    ∀ (fuel : Nat) (s : RNState),
      (rnLoop env questions answers demoWithAge phase fuel s).2.caller = s.caller := by
  intro fuel
  induction fuel with
  | zero => intro s; rfl
  | succ n ih =>
    intro s
    unfold rnLoop
    cases hq : s.queue with
    | nil => rfl
    | cons qid rest =>
      dsimp only
      by_cases hc : containsKey answers qid
      · simp only [hc, if_true]
        exact ih _
      · simp only [hc, if_false, Bool.false_eq_true]
        cases hm : qMapGet questions qid with
        | none => exact ih _
        | some question =>
          dsimp only
          by_cases ha : AUTO_EVAL_TYPES.contains question.question_type
          · simp only [ha, if_true]
            cases he : autoEvaluate env question answers demoWithAge with
            | error e => rfl
            | ok oa =>
              cases oa with
              | none => exact ih _
              | some action =>
                dsimp only
                cases hpa : (processAction env.ruleData action rest answers phase).1 with
                | cont => exact ih _
                | advanceToOpd => rfl
                | terminate t => rfl
          · simp only [ha, if_false, Bool.false_eq_true]

/-- C10: `resolveNext` leaves the caller's pending-queue array unchanged:
it works on an internal copy and hands the remaining queue back only
through its result value. -/
theorem resolveNext_caller_array_unchanged (env : Env) (source : Src) (symptom : String)
    (pending : List String) (answers demographics : AnswerMap) (phase : Nat) :
    (resolveNextFull env source symptom pending answers demographics phase).2.caller = pending := by
  unfold resolveNextFull
  exact rnLoop_caller_invariant env _ answers _ phase env.fuel ⟨pending, pending⟩

/-! ### Claim C5 -/

/-- A terminated full state reached by a concrete run: demographics, then
an ER critical screen with a positive item. -/
def c5TermState : FullState :=
  match submitAnswerN cEnv initFull [demoV, flagsTrueV] with
  | .ok f => f
  | .error _ => initFull

/-- C5 counterexample: the claim asserts that `submitAnswer` on a
terminated state yields an error outcome rather than silently doing
nothing. On a concrete terminated state the call returns normally with
the state unchanged — a silent no-op, not an error. -/
theorem submitAnswer_terminated_silently_returns :
    c5TermState.sess.terminated = true ∧
    submitAnswer cEnv c5TermState Val.null = .ok c5TermState :=
  ⟨by decide, by decide⟩

/-- C5 (amended): calling `submitAnswer` on a terminated state is a
silent no-op: no error is produced, and the full state — session fields,
history, and text overrides — is returned unchanged (in particular it is
never reset). -/
theorem submitAnswer_terminated_noop (env : Env) (f : FullState) (v : Val)
    (hterm : f.sess.terminated = true) :
    submitAnswer env f v = .ok f := by
  unfold submitAnswer
  simp [effectiveB, hterm]

/-- Witness for C5 at a concrete terminated state. -/
theorem submitAnswer_terminated_noop_witness :
    c5TermState.sess.terminated = true ∧
    submitAnswer cEnv c5TermState (Val.str "x") = .ok c5TermState :=
  ⟨by decide, submitAnswer_terminated_noop cEnv c5TermState (Val.str "x") (by decide)⟩

/-! ### Claim C9 -/

/-- Object values built from a Lean association list read back as that
list. -/
theorem valFields_toList_ofList : ∀ l : List (String × Val), (ValFields.ofList l).toList = l := by
  intro l
  induction l with
  | nil => rfl
  | cons kv rest ih =>
    cases kv
    simp [ValFields.ofList, ValFields.toList, ih]

/-- C9: a phase-1 submission with at least one flag strictly equal to
`true` immediately terminates the session with the configured default
emergency severity and department and the reason string listing the
positive qids in order; an all-negative submission advances the phase to
2. In both cases the flags are recorded and merged into the answers, and
one history snapshot of the pre-call state is pushed. -/
theorem submitAnswer_phase1_er_critical (env : Env) (f : FullState)
    (fl : List (String × Val)) (v : Val)
    (hv : v = Val.obj (ValFields.ofList fl))
    (hphase : f.sess.phase = 1) (hterm : f.sess.terminated = false) :
    ((fl.filter (fun kv => kv.2 == Val.bool true)).map (fun kv => kv.1) ≠ [] →
      submitAnswer env f v = .ok
        { sess := { f.sess with
            erCriticalFlags := fl
            allAnswers := mergeObj f.sess.allAnswers fl
            terminated := true
            result := some
              { type := "terminated"
                departments :=
                  [⟨DEFAULT_ER_DEPARTMENT, resolveDeptName env.ruleData DEFAULT_ER_DEPARTMENT⟩]
                severity :=
                  some ⟨DEFAULT_ER_SEVERITY, resolveSevName env.ruleData DEFAULT_ER_SEVERITY⟩
                reason := some ("ER critical positive: " ++ joinSep ", "
                  ((fl.filter (fun kv => kv.2 == Val.bool true)).map (fun kv => kv.1))) } }
          history := f.history ++ [snapshotE f.sess "ER Critical Screen submitted" v]
          textOverrides := f.textOverrides }) ∧
    ((fl.filter (fun kv => kv.2 == Val.bool true)).map (fun kv => kv.1) = [] →
      submitAnswer env f v = .ok
        { sess := { f.sess with
            erCriticalFlags := fl
            allAnswers := mergeObj f.sess.allAnswers fl
            phase := 2 }
          history := f.history ++ [snapshotE f.sess "ER Critical Screen submitted" v]
          textOverrides := f.textOverrides }) := by
  subst hv
  rcases f with ⟨s, hist, ov⟩
  rcases s with ⟨ph, dem, aa, ps, ss, ecf, eclf, pend, cq, term, res⟩
  simp only at hphase hterm
  subst hphase
  subst hterm
  have hflags : asObjOrEmpty (Val.obj (ValFields.ofList fl)) = fl := valFields_toList_ofList fl
  constructor
  · intro hpos
    have hne : ((fl.filter (fun kv => kv.2 == Val.bool true)).map (fun kv => kv.1)).isEmpty
        = false := by
      rcases h : (fl.filter (fun kv => kv.2 == Val.bool true)).map (fun kv => kv.1) with _ | ⟨a, b⟩
      · exact absurd h hpos
      · rw [h]
        rfl
    simp [submitAnswer, effectiveB, submitAnswerCore, submitLabel, hflags, hne,
      buildErCriticalTermination, snapshotE, except_map_ok]
  · intro hneg
    have hne : ((fl.filter (fun kv => kv.2 == Val.bool true)).map (fun kv => kv.1)).isEmpty
        = true := by
      rw [hneg]
      rfl
    simp [submitAnswer, effectiveB, submitAnswerCore, submitLabel, hflags, hne,
      buildErCriticalTermination, snapshotE, except_map_ok]

/-- A phase-1 full state for the C9 witness. -/
def c9State : FullState :=
  { sess := { initSession with phase := 1 }, history := [], textOverrides := [] }

/-- The C9 witness flags: one positive and one negative item. -/
def c9Flags : List (String × Val) :=
  [("emer_critical_001", Val.bool true), ("emer_critical_002", Val.bool false)]

/-- Witness for C9 at concrete inputs: the positive flag terminates the
session with the default emergency routing and the exact reason string. -/
theorem submitAnswer_phase1_er_critical_witness :
    c9State.sess.phase = 1 ∧
    c9State.sess.terminated = false ∧
    ((c9Flags.filter (fun kv => kv.2 == Val.bool true)).map (fun kv => kv.1) ≠ [] →
      submitAnswer cEnv c9State (Val.obj (ValFields.ofList c9Flags)) = .ok
        { sess := { c9State.sess with
            erCriticalFlags := c9Flags
            allAnswers := mergeObj c9State.sess.allAnswers c9Flags
            terminated := true
            result := some
              { type := "terminated"
                departments :=
                  [⟨DEFAULT_ER_DEPARTMENT, resolveDeptName cEnv.ruleData DEFAULT_ER_DEPARTMENT⟩]
                severity :=
                  some ⟨DEFAULT_ER_SEVERITY, resolveSevName cEnv.ruleData DEFAULT_ER_SEVERITY⟩
                reason := some ("ER critical positive: " ++ joinSep ", "
                  ((c9Flags.filter (fun kv => kv.2 == Val.bool true)).map (fun kv => kv.1))) } }
          history := c9State.history ++
            [snapshotE c9State.sess "ER Critical Screen submitted"
              (Val.obj (ValFields.ofList c9Flags))]
          textOverrides := c9State.textOverrides }) :=
  ⟨by decide, by decide,
   (submitAnswer_phase1_er_critical cEnv c9State c9Flags
      (Val.obj (ValFields.ofList c9Flags)) rfl (by decide) (by decide)).1⟩

/-! ### Claim C3 -/

/-- Entering the sequential phase 5 always lands in phase 5, whatever
branch is taken. -/
theorem enterSequentialPhase5_phase (env : Env) (st : SessionState) (symptom : String)
    (answers demos : AnswerMap) (st' : SessionState)
    (h : enterSequentialPhase5 env st symptom answers demos = .ok st') :
    st'.phase = 5 := by
  unfold enterSequentialPhase5 at h
  split at h
  · cases h
    rfl
  · split at h
    · cases h
    · cases h
      rfl
    · cases h
      rfl
    · cases h
    · cases h
      rfl

/-- C3: when the pending queue is exhausted with no terminal action, a
phase-4 session always transitions to phase 5 (it never completes early),
and a phase-5 session becomes terminated with outcome `completed` and
exactly the generic reason string. -/
theorem handleResolveResult_exhaustion_transitions (env : Env) (st : SessionState)
    (answers : AnswerMap) (p : List String) :
    (st.phase = 4 → ∀ st' : SessionState,
      handleResolveResult env st (.exhausted p) answers = .ok st' → st'.phase = 5) ∧
    (st.phase = 5 →
      handleResolveResult env st (.exhausted p) answers =
        .ok { st with
              terminated := true
              result := some
                { type := "completed"
                  departments := []
                  severity := none
                  reason := some "All phases completed without explicit termination" } }) := by
  constructor
  · intro h4 st' h
    unfold handleResolveResult at h
    rw [h4] at h
    simp only [Nat.reduceBEq, if_true] at h
    exact enterSequentialPhase5_phase env st st.primarySymptom answers st.demographics st' h
  · intro h5
    unfold handleResolveResult
    rw [h5]
    rfl

/-- A phase-4 session state for the C3 witness. -/
def c3St4 : SessionState := { initSession with phase := 4, primarySymptom := "Headache" }

/-- A phase-5 session state for the C3 witness. -/
def c3St5 : SessionState := { initSession with phase := 5 }

/-- The state produced by exhausting the phase-4 queue of the concrete
world. -/
def c3Res : SessionState :=
  match handleResolveResult cEnv c3St4 (.exhausted []) [] with
  | .ok s => s
  | .error _ => initSession

/-- Witness for C3 at concrete inputs: the phase-4 exhaustion lands in
phase 5 showing the first OPD question; the phase-5 exhaustion completes
with the generic reason. -/
theorem handleResolveResult_exhaustion_witness :
    c3St4.phase = 4 ∧
    handleResolveResult cEnv c3St4 (.exhausted []) [] = .ok c3Res ∧
    c3Res.phase = 5 ∧
    c3St5.phase = 5 ∧
    handleResolveResult cEnv c3St5 (.exhausted []) [] =
      .ok { c3St5 with
            terminated := true
            result := some
              { type := "completed"
                departments := []
                severity := none
                reason := some "All phases completed without explicit termination" } } :=
  ⟨by decide, by decide,
   (handleResolveResult_exhaustion_transitions cEnv c3St4 [] []).1 (by decide) c3Res (by decide),
   by decide,
   (handleResolveResult_exhaustion_transitions cEnv c3St5 [] []).2 (by decide)⟩

/-! ### Claim C4 -/

/-- Restoring a snapshot of a live state (not terminated, no result)
reproduces that state exactly: the nine snapshotted fields come from the
entry and the cleared `terminated`/`result` already had their cleared
values. -/
theorem restore_snapshot (s : SessionState) (label : String) (v : Val)
    (hterm : s.terminated = false) (hres : s.result = none) :
    restoreE (snapshotE s label v) = s := by
  cases s
  simp only at hterm hres
  subst hterm
  subst hres
  rfl

/-- An effective submission starts from a non-terminated state. -/
theorem effectiveB_not_terminated (s : SessionState) (h : effectiveB s = true) :
    s.terminated = false := by
  unfold effectiveB at h
  rw [Bool.and_eq_true] at h
  have h1 := h.1
  rw [Bool.not_eq_true'] at h1
  exact h1

/-- One `goBack` undoes one effective `submitAnswer` exactly, because the
submission pushes a single snapshot of the pre-call state and `goBack`
pops and restores it. -/
theorem goBack_submitAnswer (env : Env) (f f' : FullState) (v : Val)
    (heff : effectiveB f.sess = true)
    (hterm : f.sess.terminated = false) (hres : f.sess.result = none)
    (hsub : submitAnswer env f v = .ok f') :
    goBack f' = f := by
  rcases f with ⟨s, hist, ov⟩
  simp only at heff hterm hres
  unfold submitAnswer at hsub
  split at hsub
  · rcases hc : submitAnswerCore env s v with e | s'
    · rw [hc, except_map_err] at hsub
      exact Except.noConfusion hsub
    · rw [hc, except_map_ok] at hsub
      cases hsub
      unfold goBack
      simp only [List.getLast?_concat, List.dropLast_concat]
      rw [restore_snapshot s _ v hterm hres]
  · exact absurd heff (by assumption)

/-- Entering phase 5 either leaves `terminated`/`result` untouched or
terminates. -/
theorem enterSequentialPhase5_inv (env : Env) (st : SessionState) (symptom : String)
    (answers demos : AnswerMap) (st' : SessionState)
    (h : enterSequentialPhase5 env st symptom answers demos = .ok st') :
    (st'.terminated = st.terminated ∧ st'.result = st.result) ∨ st'.terminated = true := by
  unfold enterSequentialPhase5 at h
  split at h
  · cases h
    right
    rfl
  · split at h
    · cases h
    · cases h
      left
      exact ⟨rfl, rfl⟩
    · cases h
      right
      rfl
    · cases h
    · cases h
      right
      rfl

/-- Entering phase 4 either leaves `terminated`/`result` untouched or
terminates. -/
theorem enterSequentialPhase4_inv (env : Env) (st : SessionState) (symptom : String)
    (answers demos : AnswerMap) (st' : SessionState)
    (h : enterSequentialPhase4 env st symptom answers demos = .ok st') :
    (st'.terminated = st.terminated ∧ st'.result = st.result) ∨ st'.terminated = true := by
  unfold enterSequentialPhase4 at h
  split at h
  · exact enterSequentialPhase5_inv env st symptom answers demos st' h
  · split at h
    · cases h
    · cases h
      left
      exact ⟨rfl, rfl⟩
    · cases h
      right
      rfl
    · exact enterSequentialPhase5_inv env st symptom answers demos st' h
    · exact enterSequentialPhase5_inv env st symptom answers demos st' h

/-- Applying a resolve result either leaves `terminated`/`result`
untouched or terminates. -/
theorem handleResolveResult_inv (env : Env) (st : SessionState) (resolved : ResolveResult)
    (answers : AnswerMap) (st' : SessionState)
    (h : handleResolveResult env st resolved answers = .ok st') :
    (st'.terminated = st.terminated ∧ st'.result = st.result) ∨ st'.terminated = true := by
  unfold handleResolveResult at h
  split at h
  · cases h
    left
    exact ⟨rfl, rfl⟩
  · cases h
    right
    rfl
  · exact enterSequentialPhase5_inv env st st.primarySymptom answers st.demographics st' h
  · split at h
    · exact enterSequentialPhase5_inv env st st.primarySymptom answers st.demographics st' h
    · cases h
      right
      rfl

/-- The submission body either leaves `terminated`/`result` untouched or
terminates: no branch sets a result while leaving the session live. -/
theorem submitAnswerCore_inv (env : Env) (s : SessionState) (v : Val) (s' : SessionState)
    (h : submitAnswerCore env s v = .ok s') :
    (s'.terminated = s.terminated ∧ s'.result = s.result) ∨ s'.terminated = true := by
  unfold submitAnswerCore at h
  simp only [] at h
  split at h
  · cases h
    left
    exact ⟨rfl, rfl⟩
  · split at h
    · split at h
      · cases h
        left
        exact ⟨rfl, rfl⟩
      · cases h
        right
        rfl
    · split at h
      · cases h
        left
        exact ⟨rfl, rfl⟩
      · split at h
        · split at h
          · cases h
            right
            rfl
          · exact (enterSequentialPhase4_inv env _ _ _ _ s' h).imp (fun a => a) (fun a => a)
        · split at h
          · cases h
            left
            exact ⟨rfl, rfl⟩
          · split at h
            · split at h
              · cases h
              · exact (handleResolveResult_inv env _ _ _ s' h).imp (fun a => a) (fun a => a)
            · split at h
              · cases h
                right
                rfl
              · exact (enterSequentialPhase5_inv env _ _ _ _ s' h).imp (fun a => a) (fun a => a)
              · split at h
                · cases h
                · exact (handleResolveResult_inv env _ _ _ s' h).imp (fun a => a) (fun a => a)

/-- A successful submission that leaves the session live also leaves the
result empty. -/
theorem submitAnswer_result_preserved (env : Env) (f f' : FullState) (v : Val)
    (hres : f.sess.result = none) (hsub : submitAnswer env f v = .ok f')
    (hterm' : f'.sess.terminated = false) : f'.sess.result = none := by
  unfold submitAnswer at hsub
  split at hsub
  · rcases hc : submitAnswerCore env f.sess v with e | s'
    · rw [hc, except_map_err] at hsub
      exact Except.noConfusion hsub
    · rw [hc, except_map_ok] at hsub
      cases hsub
      rcases submitAnswerCore_inv env f.sess v s' hc with ⟨_, hr⟩ | ht
      · rw [hr]
        exact hres
      · rw [ht] at hterm'
        exact Bool.noConfusion hterm'
  · cases hsub
    exact hres

/-- The inductive core of the C4 round trip: `n` effective, normally
returning submissions followed by `n` `goBack` calls restore the
original full state. -/
theorem submitAnswerN_goBackN (env : Env) (vs : List Val) :
    ∀ f fN : FullState, effectiveSeqB env f vs = true →
      f.sess.terminated = false → f.sess.result = none →
      submitAnswerN env f vs = .ok fN → goBackN vs.length fN = f := by
  induction vs with
  | nil =>
    intro f fN _ _ _ h
    cases h
    rfl
  | cons v vs ih =>
    intro f fN heff hterm hres h
    unfold effectiveSeqB at heff
    rw [Bool.and_eq_true] at heff
    obtain ⟨heffB, hmatch⟩ := heff
    unfold submitAnswerN at h
    rcases hs : submitAnswer env f v with e | f1
    · rw [hs] at h
      exact Except.noConfusion h
    · rw [hs] at h hmatch
      have hrest : effectiveSeqB env f1 vs = true := hmatch
      cases vs with
      | nil =>
        cases h
        show goBack (goBackN 0 fN) = f
        exact goBack_submitAnswer env f fN v heffB hterm hres hs
      | cons w ws =>
        have heffB1 : effectiveB f1.sess = true := by
          unfold effectiveSeqB at hrest
          rw [Bool.and_eq_true] at hrest
          exact hrest.1
        have hterm1 : f1.sess.terminated = false := effectiveB_not_terminated f1.sess heffB1
        have hres1 : f1.sess.result = none :=
          submitAnswer_result_preserved env f f1 v hres hs hterm1
        have hrec := ih f1 fN hrest hterm1 hres1 h
        show goBack (goBackN (w :: ws).length fN) = f
        rw [hrec]
        exact goBack_submitAnswer env f f1 v heffB hterm hres hs

/-- A terminated full state with prior history, reached by a concrete
run, for the C4 counterexample. -/
def c4TermState : FullState :=
  match submitAnswerN cEnv initFull [demoV, flagsTrueV] with
  | .ok f => f
  | .error _ => initFull

/-- C4 counterexample: the claim quantifies over every initial session
state and every sequence of N submissions. Starting from a reachable
terminated state with non-empty history, one (ineffective, silently
ignored) submission followed by one `goBack` does not restore the
original state: the `goBack` pops a pre-existing history entry instead. -/
theorem submit_goBack_roundtrip_fails_on_terminated_state :
    submitAnswerN cEnv initFull [demoV, flagsTrueV] = .ok c4TermState ∧
    (submitAnswerN cEnv c4TermState [Val.null]).map (goBackN 1) ≠ .ok c4TermState :=
  ⟨by decide, by decide⟩

/-- C4 (amended): for every full state that is live (not terminated, no
pending result) and every sequence of N submissions each of which is
effective and returns normally, N `goBack` calls restore the exact
original full state field-for-field — including the question/option text
overrides, which are also untouched by reset. -/
theorem submitAnswerN_goBackN_roundtrip (env : Env) (f : FullState) (vs : List Val)
    (heff : effectiveSeqB env f vs = true)
    (hterm : f.sess.terminated = false) (hres : f.sess.result = none) :
    (∀ fN : FullState, submitAnswerN env f vs = .ok fN → goBackN vs.length fN = f) ∧
    (reset f).textOverrides = f.textOverrides :=
  ⟨fun fN h => submitAnswerN_goBackN env vs f fN heff hterm hres h, rfl⟩

/-- The full state after the four-phase run of the concrete world, for
the C4 witness. -/
def c4RunState : FullState :=
  match submitAnswerN cEnv initFull [demoV, flagsFalseV, symptomV, checklistV] with
  | .ok f => f
  | .error _ => initFull

/-- Witness for C4 at concrete inputs: four effective submissions through
phases 0 to 3 followed by four `goBack` calls restore the fresh state. -/
theorem submitAnswerN_goBackN_roundtrip_witness :
    effectiveSeqB cEnv initFull [demoV, flagsFalseV, symptomV, checklistV] = true ∧
    initFull.sess.terminated = false ∧
    initFull.sess.result = none ∧
    submitAnswerN cEnv initFull [demoV, flagsFalseV, symptomV, checklistV] = .ok c4RunState ∧
    goBackN 4 c4RunState = initFull :=
  ⟨by decide, by decide, by decide, by decide,
   (submitAnswerN_goBackN_roundtrip cEnv initFull [demoV, flagsFalseV, symptomV, checklistV]
      (by decide) (by decide) (by decide)).1 c4RunState (by decide)⟩

end Prescreen
